import Mathlib

/-!
Verification of the `universe-simulation` repository's N-body core.

The simulation state and operations are shallowly embedded from the Rust
sources:
* `src/sim.rs`    — the `Simulation2D` variant (namespace `Sim2D`);
* `src/sim/mod.rs` and `src/sim/state.rs` — the `State`-based RK4 variant
  (namespace `ThreeBody`).

`f64` arithmetic is idealised as `ℝ` (exact real arithmetic) for the
dynamics, and as `ℚ` for the screen-coordinate mapper (which uses only
field operations and comparisons, so it stays fully executable).  A third,
special-value-tracking model (`F64`, over `ℚ` plus signed infinities and
NaN) is used where IEEE-754 division by zero is the very point at issue.
-/

noncomputable section

namespace Sim2D

/-- `SimVector = Vector2<f64>`: a 2-D real vector, componentwise operations. -/
abbrev SimVector := ℝ × ℝ

/-- `nalgebra`'s `norm_squared`: sum of the squares of the components. -/
def norm_squared (v : SimVector) : ℝ := v.1 ^ 2 + v.2 ^ 2

/-- `nalgebra`'s `norm`: the Euclidean norm. -/
def norm (v : SimVector) : ℝ := Real.sqrt (norm_squared v)

/-- `nalgebra`'s `normalize`: `v / ‖v‖`. -/
def normalize (v : SimVector) : SimVector := (norm v)⁻¹ • v

/-- `STAR_COUNT` from `src/sim.rs`. -/
def STAR_COUNT : ℕ := 10

/-- `TIMESTEP` from `src/sim.rs` (seconds). -/
def TIMESTEP : ℝ := 1e7

/-- `G` from `src/sim.rs`. -/
def G : ℝ := 6.674e-11

/-- `SimulationDomain2D` from `src/sim.rs`. -/
structure SimulationDomain2D where
  width : ℝ
  height : ℝ
  target_screen_width : ℕ
  target_screen_height : ℕ

/-- `Star2D` from `src/sim.rs`. -/
structure Star2D where
  id : ℕ
  position : SimVector
  velocity : SimVector
  mass : ℝ
  luminosity : ℝ
  temperature : ℕ

/-- `gravitational_force_components` from `src/sim.rs`:
force on the body at `pos1` exerted by the body at `pos2`,
`normalize(pos2 - pos1) * (G * m1 * m2 / r²)`. -/
def gravitational_force_components (m1 m2 : ℝ) (pos1 pos2 : SimVector) :
    SimVector :=
  let displacement : SimVector := pos2 - pos1
  let r_squared := norm_squared displacement
  let f := G * (m1 * m2) / r_squared
  f • normalize displacement

/-- `total_gravitational_acceleration` from `src/sim.rs`: fold over
`old_stars`, skipping bodies with the same `id`, then divide the summed
force by the star's own mass. -/
def total_gravitational_acceleration (star : Star2D)
    (old_stars : List Star2D) : SimVector :=
  (star.mass)⁻¹ •
    old_stars.foldl
      (fun force old_star =>
        if star.id = old_star.id then force
        else force +
          gravitational_force_components star.mass old_star.mass
            star.position old_star.position)
      0

/-- `Star2D::new_random_star_2d` from `src/sim.rs`, with the values drawn
from the random source passed in explicitly: `xr`, `yr` are the normal
samples for the position, `mr` the normal sample for the mass, and
`u1`, `u2` the uniform samples feeding the (zeroed-out) velocity. -/
def new_random_star_2d (sim_domain : SimulationDomain2D) (id : ℕ)
    (xr yr mr u1 u2 : ℝ) : Star2D :=
  let x := max (-(sim_domain.width / 2)) (min xr (sim_domain.width / 2))
  let y := max (-(sim_domain.height / 2)) (min yr (sim_domain.height / 2))
  let x_vel := (u1 - 0.5) * 0.0
  let y_vel := (u2 - 0.5) * 0.0
  { id := id
    position := (x, y)
    velocity := (x_vel, y_vel)
    mass := mr
    luminosity := 1.0
    temperature := 5000 }

/-- `Simulation2D` from `src/sim.rs`. -/
structure Simulation2D where
  sim_domain : SimulationDomain2D
  stars : List Star2D
  time : ℝ

/-- `Simulation2D::gen_simulation_2d` from `src/sim.rs`.  The random
samples consumed by each `new_random_star_2d` call are supplied by the
`samples` source (one quintuple per id).  The loop is
`for id in 1..STAR_COUNT`, i.e. ids `1, …, STAR_COUNT - 1`. -/
def gen_simulation_2d (samples : ℕ → ℝ × ℝ × ℝ × ℝ × ℝ) : Simulation2D :=
  let sim_domain : SimulationDomain2D :=
    { width := 1e14
      height := 1e14
      target_screen_height := 1000
      target_screen_width := 1000 }
  let stars : List Star2D :=
    (List.range' 1 (STAR_COUNT - 1)).map fun id =>
      let s := samples id
      new_random_star_2d sim_domain id s.1 s.2.1 s.2.2.1 s.2.2.2.1 s.2.2.2.2
  { sim_domain := sim_domain
    stars := stars
    time := 0.0 }

/-- The body of the loop in `Simulation2D::step`: each star is updated
from its own pre-step fields and the pre-step clone `old_stars`
(position first, from the not-yet-updated velocity). -/
def stepStar (old_stars : List Star2D) (star : Star2D) : Star2D :=
  let acceleration := total_gravitational_acceleration star old_stars
  { star with
    position := star.position + TIMESTEP • star.velocity +
      (0.5 * TIMESTEP * TIMESTEP) • acceleration
    velocity := star.velocity + TIMESTEP • acceleration }

/-- `Simulation2D::step` from `src/sim.rs`.  The Rust loop mutates each
star in place, but every update reads only the star's own pre-update
fields and the pre-step clone `old_stars`, so the sweep is a `map` over
the original list. -/
def Simulation2D.step (sim : Simulation2D) : Simulation2D :=
  { sim with stars := sim.stars.map (stepStar sim.stars) }

/-- The body of the loop in `Simulation2D::step_rk4`: the four stage
evaluations for one star, each against the pre-step clone `old_stars`,
with the intermediate stars built by struct update (`..*star`). -/
def rk4Star (old_stars : List Star2D) (star : Star2D) : Star2D :=
  let initial_velocity := star.velocity
  let initial_acceleration := total_gravitational_acceleration star old_stars
  let k1_v := initial_velocity
  let k1_a := initial_acceleration
  let star_k2 : Star2D :=
    { star with
      position := star.position + (TIMESTEP * 0.5) • k1_v
      velocity := star.velocity + (TIMESTEP * 0.5) • k1_a }
  let k2_v := star_k2.velocity
  let k2_a := total_gravitational_acceleration star_k2 old_stars
  let star_k3 : Star2D :=
    { star with
      position := star.position + (TIMESTEP * 0.5) • k2_v
      velocity := star.velocity + (TIMESTEP * 0.5) • k2_a }
  let k3_v := star_k3.velocity
  let k3_a := total_gravitational_acceleration star_k3 old_stars
  let star_k4 : Star2D :=
    { star with
      position := star.position + TIMESTEP • k3_v
      velocity := star.velocity + TIMESTEP • k3_a }
  let k4_v := star_k4.velocity
  let k4_a := total_gravitational_acceleration star_k4 old_stars
  { star with
    position := star.position +
      (TIMESTEP / 6) • (k1_v + (2 : ℝ) • k2_v + (2 : ℝ) • k3_v + k4_v)
    velocity := star.velocity +
      (TIMESTEP / 6) • (k1_a + (2 : ℝ) • k2_a + (2 : ℝ) • k3_a + k4_a) }

/-- `Simulation2D::step_rk4` from `src/sim.rs`: the same in-place sweep as
`step`, with the RK4 per-star update. -/
def Simulation2D.step_rk4 (sim : Simulation2D) : Simulation2D :=
  { sim with stars := sim.stars.map (rk4Star sim.stars) }

end Sim2D

end

namespace Display

/-- The screen-coordinate mapper works purely with field operations and
comparisons, so it is embedded over `ℚ` and stays executable.  This is
`SimulationDomain2D` from `src/sim.rs` again, seen by the mapper. -/
structure SimulationDomain2D where
  width : ℚ
  height : ℚ
  target_screen_width : ℕ
  target_screen_height : ℕ

/-- `point2d_to_screen_coords` from `src/sim.rs`: aspect-corrected
normalisation into `[-1, 1] × [-1, 1]`, with `none` for "out of frame". -/
def point2d_to_screen_coords (pos : ℚ × ℚ) (screen_size : ℕ × ℕ)
    (sim_domain : SimulationDomain2D) : Option (ℚ × ℚ) :=
  let screen_width := screen_size.1
  let screen_height := screen_size.2
  let x_norm := 2 * pos.1 / sim_domain.width
  let y_norm := 2 * pos.2 / sim_domain.height
  let x_transform := (sim_domain.target_screen_width : ℚ) / (screen_width : ℚ)
  let y_transform := (sim_domain.target_screen_height : ℚ) / (screen_height : ℚ)
  let screen_x := x_norm * x_transform
  let screen_y := y_norm * y_transform
  if screen_x > 1 ∨ screen_x < -1 ∨ screen_y > 1 ∨ screen_y < -1 then
    none
  else
    some (screen_x, screen_y)

end Display

noncomputable section

namespace ThreeBody

/-- `SimVector = Vector2<f64>` in `src/sim/mod.rs`. -/
abbrev SimVector := ℝ × ℝ

/-- `G` from `src/sim/mod.rs`. -/
def G : ℝ := 1.0

/-- `State` from `src/sim/state.rs`. -/
structure State where
  positions : List SimVector
  velocities : List SimVector

/-- `StateDerivative` from `src/sim/state.rs`. -/
structure StateDerivative where
  velocities : List SimVector
  accelerations : List SimVector

/-- One elementwise-add loop from the `Add` impls in `src/sim/state.rs`:
iterate over the left list's indices, `get(i).unwrap()` on the right.
A right list shorter than the left makes `unwrap` panic (modelled as
`none`); extra right elements are silently dropped. -/
def addPointwise : List SimVector → List SimVector → Option (List SimVector)
  | [], _ => some []
  | _ :: _, [] => none
  | a :: l, b :: r => (addPointwise l r).map fun t => (a + b) :: t

/-- `impl Add for State` from `src/sim/state.rs` (positions loop, then
velocities loop); `none` models a panic of either `unwrap`. -/
def State.add (s rhs : State) : Option State := do
  let positions ← addPointwise s.positions rhs.positions
  let velocities ← addPointwise s.velocities rhs.velocities
  pure { positions := positions, velocities := velocities }

/-- `impl Add for StateDerivative` from `src/sim/state.rs`. -/
def StateDerivative.add (s rhs : StateDerivative) : Option StateDerivative := do
  let velocities ← addPointwise s.velocities rhs.velocities
  let accelerations ← addPointwise s.accelerations rhs.accelerations
  pure { velocities := velocities, accelerations := accelerations }

/-- `impl Mul<f64> for State` from `src/sim/state.rs`. -/
def State.mul (s : State) (rhs : ℝ) : State :=
  { positions := s.positions.map fun p => rhs • p
    velocities := s.velocities.map fun v => rhs • v }

/-- `impl Mul<f64> for StateDerivative` from `src/sim/state.rs`. -/
def StateDerivative.mul (s : StateDerivative) (rhs : ℝ) : StateDerivative :=
  { velocities := s.velocities.map fun v => rhs • v
    accelerations := s.accelerations.map fun a => rhs • a }

/-- `StateDerivative::to_state` from `src/sim/state.rs`. -/
def StateDerivative.to_state (s : StateDerivative) : State :=
  { positions := s.velocities
    velocities := s.accelerations }

/-- `vec[i] += x` on a list (in bounds in every use below). -/
def addAt : List SimVector → ℕ → SimVector → List SimVector
  | [], _, _ => []
  | v :: vs, 0, x => (v + x) :: vs
  | v :: vs, n + 1, x => v :: addAt vs n x

/-- The index pairs `(i, j)` visited by the double loop in
`get_state_derivative`: `for i in 0..(n-1) { for j in (i+1)..n }`. -/
def pairsList (n : ℕ) : List (ℕ × ℕ) :=
  ((List.range (n - 1)).map fun i =>
    (List.range' (i + 1) (n - (i + 1))).map fun j => (i, j)).flatten

/-- The body of the inner loop in `get_state_derivative`
(`src/sim/mod.rs`): the pairwise force and the two `+=` updates. -/
def pairUpdate (positions : List SimVector) (masses : List ℝ)
    (acc : List SimVector) (ij : ℕ × ℕ) : List SimVector :=
  let m1 := masses.getD ij.1 0
  let m2 := masses.getD ij.2 0
  let r1 := positions.getD ij.1 0
  let r2 := positions.getD ij.2 0
  let r_vec := r2 - r1
  let r := Sim2D.norm r_vec
  let force := (G * m1 * m2 / r ^ 3) • r_vec
  let a1 := (1 / m1) • force
  let a2 := (1 / m2) • (-force)
  addAt (addAt acc ij.1 a1) ij.2 a2

/-- `get_state_derivative` from `src/sim/mod.rs`: velocities are passed
through, accelerations are accumulated over the `i < j` pair sweep. -/
def get_state_derivative (state : State) (masses : List ℝ) :
    StateDerivative :=
  let n := state.positions.length
  { velocities := state.velocities
    accelerations :=
      (pairsList n).foldl (pairUpdate state.positions masses)
        (List.replicate n 0) }

/-- `rk4` from `src/sim/mod.rs`, with the panicking `+` operators
propagated as `Option`. -/
def rk4 (state : State) (masses : List ℝ) (dt : ℝ)
    (evaluate : State → List ℝ → StateDerivative) : Option State := do
  let k1 := evaluate state masses
  let s2 ← state.add ((k1.mul 0.5 |>.mul dt).to_state)
  let k2 := evaluate s2 masses
  let s3 ← state.add ((k2.mul 0.5 |>.mul dt).to_state)
  let k3 := evaluate s3 masses
  let s4 ← state.add ((k3.mul dt).to_state)
  let k4 := evaluate s4 masses
  let sum1 ← k1.add (k2.mul 2)
  let sum2 ← sum1.add (k3.mul 2)
  let sum3 ← sum2.add k4
  let x_prime := sum3.mul (1 / 6)
  state.add ((x_prime.mul dt).to_state)

/-- `step` from `src/sim/mod.rs`. -/
def step (state : State) (masses : List ℝ) (dt : ℝ) : Option State :=
  rk4 state masses dt get_state_derivative

/-- `Simulation::new_3body` from `src/sim/mod.rs` (its initial state). -/
def new_3body_state : State :=
  { positions :=
      [(-0.3092050, 0.0), (0.1546025, -0.09875616), (0.1546025, 0.09875616)]
    velocities :=
      [(0.0, -0.50436399), (-1.18437049, 0.25218199), (1.18437049, 0.25218199)] }

/-- `Simulation::new_3body` masses. -/
def new_3body_masses : List ℝ := [1 / 3, 1 / 3, 1 / 3]

/-- Elementwise sum of two equal-length lists of vectors (the elementwise
addition the spec describes for RK4 blending). -/
def addL (a b : List SimVector) : List SimVector := List.zipWith (· + ·) a b

/-- Elementwise scaling of a list of vectors. -/
def smulL (c : ℝ) (a : List SimVector) : List SimVector := a.map fun v => c • v

/-- The RK4 update exactly as the specification phrases it (spec-side
definition for the refinement proof): four derivative evaluations
`k1..k4` of the `(position, velocity) → (velocity, acceleration)` map —
`k1` at the base state, `k2`/`k3` at the base offset by `0.5*dt*k1` and
`0.5*dt*k2`, `k4` at the base offset by `dt*k3` — and
`state' = state + dt/6 * (k1 + 2*k2 + 2*k3 + k4)`, all elementwise. -/
def rk4Claim (state : State) (masses : List ℝ) (dt : ℝ) : State :=
  let D : State → StateDerivative := fun s => get_state_derivative s masses
  let offset : State → ℝ → StateDerivative → State := fun s c k =>
    { positions := addL s.positions (smulL c k.velocities)
      velocities := addL s.velocities (smulL c k.accelerations) }
  let k1 := D state
  let k2 := D (offset state (0.5 * dt) k1)
  let k3 := D (offset state (0.5 * dt) k2)
  let k4 := D (offset state dt k3)
  let kv := addL (addL (addL k1.velocities (smulL 2 k2.velocities))
    (smulL 2 k3.velocities)) k4.velocities
  let ka := addL (addL (addL k1.accelerations (smulL 2 k2.accelerations))
    (smulL 2 k3.accelerations)) k4.accelerations
  { positions := addL state.positions (smulL (dt / 6) kv)
    velocities := addL state.velocities (smulL (dt / 6) ka) }

/-- Mass-weighted sum `Σ mᵢ • vᵢ` (total momentum when `vᵢ` are
velocities), truncated at the shorter list. -/
def wsum : List ℝ → List SimVector → SimVector
  | m :: ms, v :: vs => m • v + wsum ms vs
  | _, _ => 0

end ThreeBody

/-- Momentum of a `Sim2D` star list: `Σ massᵢ • velocityᵢ`. -/
def Sim2D.momentum (stars : List Sim2D.Star2D) : Sim2D.SimVector :=
  (stars.map fun s => s.mass • s.velocity).sum

/-- A concrete star used to instantiate hypotheses of the theorems below. -/
def Sim2D.starA : Sim2D.Star2D :=
  { id := 1, position := (0, 0), velocity := (0, 0)
    mass := 5e29, luminosity := 1, temperature := 5000 }

/-- A second concrete star. -/
def Sim2D.starB : Sim2D.Star2D :=
  { id := 2, position := (1e10, 0), velocity := (0, 0)
    mass := 5e29, luminosity := 1, temperature := 5000 }

/-- A concrete two-body simulation. -/
def Sim2D.simA : Sim2D.Simulation2D :=
  { sim_domain :=
      { width := 1e14, height := 1e14
        target_screen_width := 1000, target_screen_height := 1000 }
    stars := [Sim2D.starA, Sim2D.starB]
    time := 0 }

/-- The concrete star produced by the generator for id 1 under the
all-zero sample source (mass sample 1). -/
def Sim2D.starGen1 : Sim2D.Star2D :=
  Sim2D.new_random_star_2d
    { width := 1e14, height := 1e14
      target_screen_width := 1000, target_screen_height := 1000 } 1 0 0 1 0 0

end

/-- The generated simulation's display domain, as seen by the mapper. -/
def Display.domA : Display.SimulationDomain2D :=
  { width := 1e14, height := 1e14
    target_screen_width := 1000, target_screen_height := 1000 }

namespace Sim2D

lemma foldl_skip_eq_sum (star : Star2D) (f : Star2D → SimVector)
    (L : List Star2D) :
    ∀ init : SimVector,
      L.foldl (fun force o => if star.id = o.id then force else force + f o)
        init =
      init + (L.map fun o => if star.id = o.id then 0 else f o).sum := by
  induction L with
  | nil => intro init; simp
  | cons o L ih =>
    intro init
    by_cases h : star.id = o.id
    · simp only [List.foldl_cons, if_pos h, List.map_cons, List.sum_cons, ih]
      rw [zero_add]
    · simp only [List.foldl_cons, if_neg h, List.map_cons, List.sum_cons, ih]
      abel

lemma map_if_eq_filter (star : Star2D) (f : Star2D → SimVector)
    (L : List Star2D) :
    (L.map fun o => if star.id = o.id then 0 else f o).sum =
      ((L.filter fun o => o.id ≠ star.id).map f).sum := by
  induction L with
  | nil => simp
  | cons o L ih =>
    by_cases h : star.id = o.id
    · simp only [List.map_cons, List.sum_cons, if_pos h, List.filter_cons]
      have hne : ¬ (o.id ≠ star.id) := by omega
      simp [hne, ih]
    · simp only [List.map_cons, List.sum_cons, if_neg h, List.filter_cons]
      have hne : (o.id ≠ star.id) := by omega
      simp [hne, ih]

lemma total_gravitational_acceleration_eq (star : Star2D) (L : List Star2D) :
    total_gravitational_acceleration star L =
      (star.mass)⁻¹ •
        ((L.filter fun o => o.id ≠ star.id).map fun o =>
          gravitational_force_components star.mass o.mass
            star.position o.position).sum := by
  rw [total_gravitational_acceleration, foldl_skip_eq_sum, zero_add,
    map_if_eq_filter]

lemma norm_squared_neg (v : SimVector) :
    norm_squared (-v) = norm_squared v := by
  simp [norm_squared]

lemma normalize_neg (v : SimVector) : normalize (-v) = - normalize v := by
  simp [normalize, norm, norm_squared_neg, smul_neg]

lemma gravitational_force_components_antisymm (m1 m2 : ℝ) (p1 p2 : SimVector) :
    gravitational_force_components m2 m1 p2 p1 =
      - gravitational_force_components m1 m2 p1 p2 := by
  simp only [gravitational_force_components]
  rw [show p1 - p2 = -(p2 - p1) by abel, norm_squared_neg, normalize_neg,
    smul_neg, mul_comm m2 m1]

lemma sum_map_add {α : Type} (f g : α → SimVector) (L : List α) :
    (L.map fun a => f a + g a).sum = (L.map f).sum + (L.map g).sum := by
  induction L with
  | nil => simp
  | cons x L ih => simp only [List.map_cons, List.sum_cons, ih]; abel

lemma sum_map_smul {α : Type} (c : ℝ) (f : α → SimVector) (L : List α) :
    (L.map fun a => c • f a).sum = c • (L.map f).sum := by
  induction L with
  | nil => simp
  | cons x L ih => simp only [List.map_cons, List.sum_cons, ih, smul_add]

lemma sum_antisymm {α : Type} (g : α → α → SimVector)
    (hg : ∀ a b, g a b = - g b a) (L : List α) :
    (L.map fun a => (L.map (g a)).sum).sum = 0 := by
  induction L with
  | nil => simp
  | cons x L ih =>
    have h0 : g x x = 0 := by
      have h := hg x x
      have h1 := congrArg Prod.fst h
      have h2 := congrArg Prod.snd h
      simp only [Prod.fst_neg, Prod.snd_neg] at h1 h2
      apply Prod.ext <;> simp <;> linarith
    have hsplit := sum_map_add (fun a => g x a) (fun a => g a x) L
    have hcancel : (L.map fun a => g x a + g a x).sum = 0 := by
      rw [List.map_congr_left (g := fun _ => (0 : SimVector))]
      · simp
      · intro a _
        rw [hg x a]
        exact neg_add_cancel _
    rw [hcancel] at hsplit
    simp only [List.map_cons, List.sum_cons, h0, zero_add]
    rw [sum_map_add (fun a => g a x) (fun a => (L.map (g a)).sum) L, ih,
      add_zero]
    exact hsplit.symm

lemma momentum_step (sim : Simulation2D)
    (hm : ∀ s ∈ sim.stars, s.mass ≠ 0) :
    momentum (sim.step).stars = momentum sim.stars := by
  have hg : ∀ a b : Star2D,
      (if a.id = b.id then (0 : SimVector) else
        gravitational_force_components a.mass b.mass a.position b.position) =
      - (if b.id = a.id then (0 : SimVector) else
        gravitational_force_components b.mass a.mass b.position a.position) := by
    intro a b
    by_cases h : a.id = b.id
    · rw [if_pos h, if_pos h.symm, neg_zero]
    · rw [if_neg h, if_neg fun hc => h hc.symm]
      exact gravitational_force_components_antisymm b.mass a.mass
        b.position a.position
  have key : (sim.stars.map fun s => (sim.stars.map fun o =>
      if s.id = o.id then (0 : SimVector) else
        gravitational_force_components s.mass o.mass
          s.position o.position).sum).sum = 0 :=
    sum_antisymm (fun s o => if s.id = o.id then (0 : SimVector) else
      gravitational_force_components s.mass o.mass s.position o.position)
      hg sim.stars
  show ((sim.stars.map (stepStar sim.stars)).map
    fun s => s.mass • s.velocity).sum = _
  rw [List.map_map]
  rw [List.map_congr_left (g := fun s : Star2D =>
    s.mass • s.velocity + TIMESTEP •
      (sim.stars.map fun o => if s.id = o.id then (0 : SimVector) else
        gravitational_force_components s.mass o.mass
          s.position o.position).sum) ?_]
  · rw [sum_map_add, sum_map_smul, key, smul_zero, add_zero]
    rfl
  · intro s hs
    show (stepStar sim.stars s).mass • (stepStar sim.stars s).velocity = _
    simp only [stepStar]
    rw [total_gravitational_acceleration_eq, ← map_if_eq_filter, smul_add]
    congr 1
    rw [smul_comm s.mass TIMESTEP, smul_inv_smul₀ (hm s hs)]

lemma new_random_star_props (dom : SimulationDomain2D)
    (hw : 0 ≤ dom.width) (hh : 0 ≤ dom.height) (id : ℕ) (xr yr mr u1 u2 : ℝ) :
    |(new_random_star_2d dom id xr yr mr u1 u2).position.1| ≤ dom.width / 2 ∧
    |(new_random_star_2d dom id xr yr mr u1 u2).position.2| ≤ dom.height / 2 ∧
    (new_random_star_2d dom id xr yr mr u1 u2).velocity = 0 ∧
    (new_random_star_2d dom id xr yr mr u1 u2).id = id := by
  have h0 : (0.0 : ℝ) = 0 := by norm_num
  refine ⟨?_, ?_, ?_, rfl⟩
  · rw [abs_le]
    exact ⟨le_max_left _ _, max_le (by linarith) (min_le_right _ _)⟩
  · rw [abs_le]
    exact ⟨le_max_left _ _, max_le (by linarith) (min_le_right _ _)⟩
  · show ((u1 - 0.5) * 0.0, (u2 - 0.5) * 0.0) = (0 : ℝ × ℝ)
    rw [h0, mul_zero, mul_zero]
    rfl

end Sim2D

namespace IEEE

/-- An `f64` value for the division-by-zero analysis: a finite value
(idealised as `ℚ`, the two signed zeros collapsed), a signed infinity, or
NaN.  `inf false` is `+∞`, `inf true` is `-∞`. -/
inductive F64 where
  | fin (x : ℚ)
  | inf (neg : Bool)
  | nan
deriving DecidableEq

namespace F64

/-- IEEE negation. -/
def neg : F64 → F64
  | fin a => fin (-a)
  | inf s => inf (!s)
  | nan => nan

/-- IEEE addition (signed-zero distinctions dropped). -/
def add : F64 → F64 → F64
  | fin a, fin b => fin (a + b)
  | fin _, inf s => inf s
  | inf s, fin _ => inf s
  | inf s, inf t => if s = t then inf s else nan
  | _, _ => nan

/-- IEEE subtraction. -/
def sub (a b : F64) : F64 := add a (neg b)

/-- IEEE multiplication: `0 * ∞ = NaN`, signs multiply. -/
def mul : F64 → F64 → F64
  | fin a, fin b => fin (a * b)
  | fin a, inf s => if a = 0 then nan else inf (xor (decide (a < 0)) s)
  | inf s, fin a => if a = 0 then nan else inf (xor s (decide (a < 0)))
  | inf s, inf t => inf (xor s t)
  | _, _ => nan

/-- IEEE division: a nonzero finite value divided by zero is a signed
infinity, `0 / 0 = NaN`, `∞ / ∞ = NaN`. -/
def div : F64 → F64 → F64
  | fin a, fin b =>
      if b = 0 then (if a = 0 then nan else inf (decide (a < 0)))
      else fin (a / b)
  | fin _, inf _ => fin 0
  | inf s, fin b => inf (xor s (decide (b < 0)))
  | inf _, inf _ => nan
  | _, _ => nan

/-- IEEE square root: exact on `0` and on infinities/NaN; on a positive
finite value the (irrational) result is approximated by the supplied
`sq`, which the degenerate-input analysis never consults. -/
def sqrt (sq : ℚ → ℚ) : F64 → F64
  | fin x => if x = 0 then fin 0 else if x < 0 then nan else fin (sq x)
  | inf s => if s then nan else inf false
  | nan => nan

end F64

/-- Componentwise vector subtraction. -/
def subV (a b : F64 × F64) : F64 × F64 := (a.1.sub b.1, a.2.sub b.2)

/-- `nalgebra`'s `norm_squared` over the special-value domain. -/
def norm_squaredV (v : F64 × F64) : F64 := (v.1.mul v.1).add (v.2.mul v.2)

/-- `nalgebra`'s `norm`. -/
def normV (sq : ℚ → ℚ) (v : F64 × F64) : F64 := (norm_squaredV v).sqrt sq

/-- `nalgebra`'s `normalize`: `v / ‖v‖`, componentwise. -/
def normalizeV (sq : ℚ → ℚ) (v : F64 × F64) : F64 × F64 :=
  ((v.1).div (normV sq v), (v.2).div (normV sq v))

/-- Vector–scalar product. -/
def scaleV (v : F64 × F64) (f : F64) : F64 × F64 := (v.1.mul f, v.2.mul f)

/-- `G` from `src/sim.rs` as a rational. -/
def Gq : ℚ := 6.674e-11

/-- `gravitational_force_components` from `src/sim.rs`, re-embedded over
the special-value domain so that IEEE division by zero is visible:
`normalize(pos2 - pos1) * (G * (m1 * m2) / r²)`, with no guard on `r²`. -/
def gravitational_force_componentsF64 (sq : ℚ → ℚ) (m1 m2 : F64)
    (pos1 pos2 : F64 × F64) : F64 × F64 :=
  let displacement := subV pos2 pos1
  let r_squared := norm_squaredV displacement
  let f := ((F64.fin Gq).mul (m1.mul m2)).div r_squared
  scaleV (normalizeV sq displacement) f

/-- The force line of `get_state_derivative` in `src/sim/mod.rs`,
re-embedded over the special-value domain:
`force = G * m1 * m2 * r_vec / r.powi(3)` with `r = r_vec.norm()` and no
guard on `r`. -/
def forceLineF64 (sq : ℚ → ℚ) (m1 m2 : F64) (r1 r2 : F64 × F64) :
    F64 × F64 :=
  let r_vec := subV r2 r1
  let r := normV sq r_vec
  let scalar := ((F64.fin 1).mul m1).mul m2
  let r3 := (r.mul r).mul r
  ((scalar.mul r_vec.1).div r3, (scalar.mul r_vec.2).div r3)

end IEEE

/-- Claim C1: one call to `Simulation2D::step` sets, for every body `i`,
`position' = position + velocity*dt + 0.5*a*dt²` and
`velocity' = velocity + a*dt`, where `a` is the total gravitational
acceleration of body `i` evaluated against the full pre-step list of
bodies (`dt` is the fixed `TIMESTEP`). -/
theorem claim_C1_velocity_verlet_step (sim : Sim2D.Simulation2D) (i : ℕ)
    (d : Sim2D.Star2D) (h : i < sim.stars.length) :
    ((sim.step).stars.getD i d).position =
      (sim.stars.getD i d).position +
        Sim2D.TIMESTEP • (sim.stars.getD i d).velocity +
        (0.5 * Sim2D.TIMESTEP * Sim2D.TIMESTEP) •
          Sim2D.total_gravitational_acceleration
            (sim.stars.getD i d) sim.stars ∧
    ((sim.step).stars.getD i d).velocity =
      (sim.stars.getD i d).velocity +
        Sim2D.TIMESTEP •
          Sim2D.total_gravitational_acceleration
            (sim.stars.getD i d) sim.stars := by
  have h' : i < ((sim.stars.map (Sim2D.stepStar sim.stars))).length := by
    simpa using h
  show ((sim.stars.map (Sim2D.stepStar sim.stars)).getD i d).position = _ ∧
    ((sim.stars.map (Sim2D.stepStar sim.stars)).getD i d).velocity = _
  rw [List.getD_eq_getElem _ _ h', List.getD_eq_getElem _ _ h,
    List.getElem_map]
  exact ⟨rfl, rfl⟩

/-- Witness for C1 at a concrete two-body simulation, index 0. -/
theorem claim_C1_witness :
    ((Sim2D.simA.step).stars.getD 0 Sim2D.starA).position =
      (Sim2D.simA.stars.getD 0 Sim2D.starA).position +
        Sim2D.TIMESTEP • (Sim2D.simA.stars.getD 0 Sim2D.starA).velocity +
        (0.5 * Sim2D.TIMESTEP * Sim2D.TIMESTEP) •
          Sim2D.total_gravitational_acceleration
            (Sim2D.simA.stars.getD 0 Sim2D.starA) Sim2D.simA.stars ∧
    ((Sim2D.simA.step).stars.getD 0 Sim2D.starA).velocity =
      (Sim2D.simA.stars.getD 0 Sim2D.starA).velocity +
        Sim2D.TIMESTEP •
          Sim2D.total_gravitational_acceleration
            (Sim2D.simA.stars.getD 0 Sim2D.starA) Sim2D.simA.stars :=
  claim_C1_velocity_verlet_step Sim2D.simA 0 Sim2D.starA
    (by simp [Sim2D.simA])

/-- Claim C3 counterexample: under any sample source (here the all-zero
source with mass sample 1), `gen_simulation_2d` yields 9 bodies, not
`STAR_COUNT = 10`, so there is no additional fixed anchor body at the
origin. -/
theorem claim_C3_counterexample :
    (Sim2D.gen_simulation_2d (fun _ => (0, 0, 1, 0, 0))).stars.length = 9 ∧
    Sim2D.STAR_COUNT = 10 := by
  constructor
  · simp [Sim2D.gen_simulation_2d, Sim2D.STAR_COUNT]
  · rfl

/-- Claim C3 (amended): every run of `gen_simulation_2d` produces
`STAR_COUNT - 1` bodies (no anchor body), with ids `1..STAR_COUNT-1`,
positions clamped to within ±half the domain extent per axis, and zero
initial velocity. -/
theorem claim_C3_generator (samples : ℕ → ℝ × ℝ × ℝ × ℝ × ℝ) :
    (Sim2D.gen_simulation_2d samples).stars.length = Sim2D.STAR_COUNT - 1 ∧
    ∀ s ∈ (Sim2D.gen_simulation_2d samples).stars,
      |s.position.1| ≤
        (Sim2D.gen_simulation_2d samples).sim_domain.width / 2 ∧
      |s.position.2| ≤
        (Sim2D.gen_simulation_2d samples).sim_domain.height / 2 ∧
      s.velocity = 0 ∧ 1 ≤ s.id ∧ s.id ≤ Sim2D.STAR_COUNT - 1 := by
  constructor
  · simp [Sim2D.gen_simulation_2d, Sim2D.STAR_COUNT]
  · intro s hs
    simp only [Sim2D.gen_simulation_2d, List.mem_map, List.mem_range'] at hs
    obtain ⟨id, ⟨i, hi, rfl⟩, rfl⟩ := hs
    have hp := Sim2D.new_random_star_props
      ⟨1e14, 1e14, 1000, 1000⟩ (by norm_num) (by norm_num)
      (1 + 1 * i) (samples (1 + 1 * i)).1 (samples (1 + 1 * i)).2.1
      (samples (1 + 1 * i)).2.2.1 (samples (1 + 1 * i)).2.2.2.1
      (samples (1 + 1 * i)).2.2.2.2
    refine ⟨hp.1, hp.2.1, hp.2.2.1, ?_, ?_⟩
    · rw [hp.2.2.2]; omega
    · rw [hp.2.2.2]
      simp only [Sim2D.STAR_COUNT] at hi ⊢
      omega

/-- Witness for C3 (amended) at the all-zero sample source and the body
generated for id 1. -/
theorem claim_C3_witness :
    Sim2D.starGen1 ∈
      (Sim2D.gen_simulation_2d (fun _ => (0, 0, 1, 0, 0))).stars ∧
    (Sim2D.gen_simulation_2d (fun _ => (0, 0, 1, 0, 0))).stars.length =
      Sim2D.STAR_COUNT - 1 ∧
    |Sim2D.starGen1.position.1| ≤
      (Sim2D.gen_simulation_2d
        (fun _ => (0, 0, 1, 0, 0))).sim_domain.width / 2 ∧
    Sim2D.starGen1.velocity = 0 := by
  have hm : Sim2D.starGen1 ∈
      (Sim2D.gen_simulation_2d (fun _ => (0, 0, 1, 0, 0))).stars := by
    simp only [Sim2D.gen_simulation_2d, List.mem_map, List.mem_range']
    exact ⟨1, ⟨0, by norm_num [Sim2D.STAR_COUNT], by norm_num⟩, rfl⟩
  exact ⟨hm, (claim_C3_generator _).1,
    ((claim_C3_generator _).2 _ hm).1, ((claim_C3_generator _).2 _ hm).2.2.1⟩

/-- Claim C4: evaluated on two bodies at exactly the same position
(`r² = 0`), the pairwise force computation has no minimum-distance floor,
error, or skip; under IEEE-754 division semantics both components of the
returned force are NaN (the magnitude `G*m1*m2/r²` is `+∞` and
`normalize` of the zero vector is NaN), for the `sim.rs` force and for
the force line of `get_state_derivative` in `sim/mod.rs` alike.  This
refutes the claim as a statement about the implementation. -/
theorem claim_C4_zero_distance_force_is_nan : ∀ sq : ℚ → ℚ,
    IEEE.gravitational_force_componentsF64 sq (.fin 8e29) (.fin 8e29)
      ((.fin 0), (.fin 0)) ((.fin 0), (.fin 0)) = (.nan, .nan) ∧
    IEEE.forceLineF64 sq (.fin (1/3)) (.fin (1/3))
      ((.fin 0), (.fin 0)) ((.fin 0), (.fin 0)) = (.nan, .nan) := by
  intro sq
  constructor
  · simp [IEEE.gravitational_force_componentsF64, IEEE.scaleV,
      IEEE.normalizeV, IEEE.normV, IEEE.norm_squaredV, IEEE.subV,
      IEEE.F64.sub, IEEE.F64.add, IEEE.F64.neg, IEEE.F64.mul, IEEE.F64.div,
      IEEE.F64.sqrt, IEEE.Gq]
  · simp [IEEE.forceLineF64, IEEE.normV, IEEE.norm_squaredV, IEEE.subV,
      IEEE.F64.sub, IEEE.F64.add, IEEE.F64.neg, IEEE.F64.mul, IEEE.F64.div,
      IEEE.F64.sqrt]

/-- Claim C5: total acceleration is the sum of pairwise force
contributions from every body whose id differs from the subject body's,
divided by the subject's own mass; with no differing-id body present the
result is exactly the zero vector. -/
theorem claim_C5_total_acceleration (star : Sim2D.Star2D)
    (others : List Sim2D.Star2D) :
    Sim2D.total_gravitational_acceleration star others =
      (star.mass)⁻¹ •
        ((others.filter fun o => o.id ≠ star.id).map fun o =>
          Sim2D.gravitational_force_components star.mass o.mass
            star.position o.position).sum ∧
    ((∀ o ∈ others, o.id = star.id) →
      Sim2D.total_gravitational_acceleration star others = 0) := by
  refine ⟨Sim2D.total_gravitational_acceleration_eq star others, ?_⟩
  intro hall
  rw [Sim2D.total_gravitational_acceleration_eq]
  have hnil : others.filter (fun o => o.id ≠ star.id) = [] := by
    rw [List.filter_eq_nil_iff]
    intro o ho
    simpa using hall o ho
  rw [hnil]
  simp

/-- Witness for C5: a single body (the list holding only itself) gets the
zero acceleration vector. -/
theorem claim_C5_witness :
    Sim2D.total_gravitational_acceleration Sim2D.starA [Sim2D.starA] = 0 :=
  (claim_C5_total_acceleration Sim2D.starA [Sim2D.starA]).2
    (by intro o ho; simp only [List.mem_singleton] at ho; rw [ho])

/-- Claim C6: the coordinate mapper returns `none` exactly when an
aspect-corrected normalised coordinate exceeds ±1, and otherwise returns
those coordinates; the domain center maps to `(0,0)`, and with target
display size equal to actual display size a position at domain half-width
plus one unit maps to `none`. -/
theorem claim_C6_to_display (pos : ℚ × ℚ) (screen : ℕ × ℕ)
    (dom : Display.SimulationDomain2D) :
    (Display.point2d_to_screen_coords pos screen dom = none ↔
      1 < |2 * pos.1 / dom.width *
        ((dom.target_screen_width : ℚ) / (screen.1 : ℚ))| ∨
      1 < |2 * pos.2 / dom.height *
        ((dom.target_screen_height : ℚ) / (screen.2 : ℚ))|)
    ∧ (¬(1 < |2 * pos.1 / dom.width *
          ((dom.target_screen_width : ℚ) / (screen.1 : ℚ))| ∨
        1 < |2 * pos.2 / dom.height *
          ((dom.target_screen_height : ℚ) / (screen.2 : ℚ))|) →
        Display.point2d_to_screen_coords pos screen dom =
          some (2 * pos.1 / dom.width *
              ((dom.target_screen_width : ℚ) / (screen.1 : ℚ)),
            2 * pos.2 / dom.height *
              ((dom.target_screen_height : ℚ) / (screen.2 : ℚ))))
    ∧ Display.point2d_to_screen_coords (0, 0) screen dom = some (0, 0)
    ∧ (0 < dom.width → screen.1 = dom.target_screen_width →
        screen.2 = dom.target_screen_height →
        0 < dom.target_screen_width →
        Display.point2d_to_screen_coords (dom.width / 2 + 1, 0) screen dom =
          none) := by
  refine ⟨?_, ?_, ?_, ?_⟩
  · simp only [Display.point2d_to_screen_coords]
    split
    · rename_i h
      simp only [true_iff]
      rcases h with h | h | h | h
      · exact Or.inl (lt_abs.mpr (Or.inl h))
      · exact Or.inl (lt_abs.mpr (Or.inr (by linarith)))
      · exact Or.inr (lt_abs.mpr (Or.inl h))
      · exact Or.inr (lt_abs.mpr (Or.inr (by linarith)))
    · rename_i h
      push_neg at h
      simp only [reduceCtorEq, false_iff]
      push_neg
      constructor
      · rw [abs_le]; exact ⟨by linarith [h.2.1], h.1⟩
      · rw [abs_le]; exact ⟨by linarith [h.2.2.2], h.2.2.1⟩
  · intro h
    push_neg at h
    obtain ⟨hx, hy⟩ := h
    rw [abs_le] at hx hy
    simp only [Display.point2d_to_screen_coords]
    rw [if_neg]
    push_neg
    exact ⟨hx.2, by linarith [hx.1], hy.2, by linarith [hy.1]⟩
  · simp [Display.point2d_to_screen_coords]
  · intro hw h1 h2 ht
    have htq : (0:ℚ) < (dom.target_screen_width : ℚ) := by exact_mod_cast ht
    have hgt : 2 * (dom.width / 2 + 1) / dom.width *
        ((dom.target_screen_width : ℚ) / (screen.1 : ℚ)) > 1 := by
      rw [h1, div_self (ne_of_gt htq), mul_one, gt_iff_lt, lt_div_iff₀ hw]
      linarith
    simp only [Display.point2d_to_screen_coords]
    rw [if_pos (Or.inl hgt)]

/-- Witness for C6 at the generated domain with matching screen sizes:
center in frame at the origin, half-width-plus-one out of frame, and an
interior point mapped to its normalised coordinates. -/
theorem claim_C6_witness :
    Display.point2d_to_screen_coords (0, 0) (1000, 1000) Display.domA =
      some (0, 0) ∧
    Display.point2d_to_screen_coords (Display.domA.width / 2 + 1, 0)
      (1000, 1000) Display.domA = none ∧
    Display.point2d_to_screen_coords (1, 2) (1000, 1000) Display.domA =
      some (2 * (1:ℚ) / Display.domA.width *
          ((Display.domA.target_screen_width : ℚ) / ((1000:ℕ) : ℚ)),
        2 * (2:ℚ) / Display.domA.height *
          ((Display.domA.target_screen_height : ℚ) / ((1000:ℕ) : ℚ))) := by
  refine ⟨(claim_C6_to_display (0, 0) (1000, 1000) Display.domA).2.2.1,
    (claim_C6_to_display (Display.domA.width / 2 + 1, 0) (1000, 1000)
      Display.domA).2.2.2 (by norm_num [Display.domA]) rfl rfl
      (by norm_num [Display.domA]),
    (claim_C6_to_display (1, 2) (1000, 1000) Display.domA).2.1 ?_⟩
  norm_num [Display.domA, abs_le]

/-- Claim C9: `Simulation2D::step` and `Simulation2D::step_rk4` leave
every star's id, mass, luminosity and temperature, the simulation domain,
and the simulation time unchanged — only positions and velocities move. -/
theorem claim_C9_stepping_only_moves_bodies (sim : Sim2D.Simulation2D) :
    ((sim.step).stars.map fun s =>
        (s.id, s.mass, s.luminosity, s.temperature)) =
      (sim.stars.map fun s => (s.id, s.mass, s.luminosity, s.temperature)) ∧
    (sim.step).sim_domain = sim.sim_domain ∧
    (sim.step).time = sim.time ∧
    ((sim.step_rk4).stars.map fun s =>
        (s.id, s.mass, s.luminosity, s.temperature)) =
      (sim.stars.map fun s => (s.id, s.mass, s.luminosity, s.temperature)) ∧
    (sim.step_rk4).sim_domain = sim.sim_domain ∧
    (sim.step_rk4).time = sim.time := by
  refine ⟨?_, rfl, rfl, ?_, rfl, rfl⟩
  · show (sim.stars.map (Sim2D.stepStar sim.stars)).map _ = _
    rw [List.map_map]
    exact List.map_congr_left fun s _ => rfl
  · show (sim.stars.map (Sim2D.rk4Star sim.stars)).map _ = _
    rw [List.map_map]
    exact List.map_congr_left fun s _ => rfl

namespace ThreeBody

lemma addPointwise_eq_zipWith :
    ∀ (a b : List SimVector), a.length ≤ b.length →
      addPointwise a b = some (List.zipWith (· + ·) a b)
  | [], _, _ => by simp [addPointwise]
  | x :: l, [], h => by simp at h
  | x :: l, y :: r, h => by
      simp only [addPointwise, List.zipWith_cons_cons]
      rw [addPointwise_eq_zipWith l r (by simpa using h)]
      rfl

lemma addPointwise_none_iff :
    ∀ (a b : List SimVector),
      addPointwise a b = none ↔ b.length < a.length
  | [], b => by simp [addPointwise]
  | x :: l, [] => by simp [addPointwise]
  | x :: l, y :: r => by
      simp only [addPointwise, List.length_cons]
      rw [Option.map_eq_none']
      rw [addPointwise_none_iff l r]
      omega

lemma state_add_eq (s r : State)
    (hp : s.positions.length ≤ r.positions.length)
    (hv : s.velocities.length ≤ r.velocities.length) :
    s.add r = some
      { positions := addL s.positions r.positions
        velocities := addL s.velocities r.velocities } := by
  rw [State.add, addPointwise_eq_zipWith _ _ hp,
    addPointwise_eq_zipWith _ _ hv]
  rfl

lemma deriv_add_eq (s r : StateDerivative)
    (hv : s.velocities.length ≤ r.velocities.length)
    (ha : s.accelerations.length ≤ r.accelerations.length) :
    s.add r = some
      { velocities := addL s.velocities r.velocities
        accelerations := addL s.accelerations r.accelerations } := by
  rw [StateDerivative.add, addPointwise_eq_zipWith _ _ hv,
    addPointwise_eq_zipWith _ _ ha]
  rfl

lemma length_smulL (c : ℝ) (l : List SimVector) :
    (smulL c l).length = l.length := List.length_map _ _

lemma length_addL (a b : List SimVector) :
    (addL a b).length = min a.length b.length := List.length_zipWith _ _ _

lemma addAt_length : ∀ (l : List SimVector) (i : ℕ) (x : SimVector),
    (addAt l i x).length = l.length
  | [], _, _ => rfl
  | v :: vs, 0, x => rfl
  | v :: vs, n + 1, x => by simp [addAt, addAt_length vs n x]

lemma pairUpdate_length (P : List SimVector) (M : List ℝ)
    (acc : List SimVector) (ij : ℕ × ℕ) :
    (pairUpdate P M acc ij).length = acc.length := by
  simp [pairUpdate, addAt_length]

lemma foldl_pairUpdate_length (P : List SimVector) (M : List ℝ) :
    ∀ (ps : List (ℕ × ℕ)) (acc : List SimVector),
      (ps.foldl (pairUpdate P M) acc).length = acc.length
  | [], acc => rfl
  | ij :: ps, acc => by
      simp only [List.foldl_cons]
      rw [foldl_pairUpdate_length P M ps, pairUpdate_length]

lemma gsd_velocities (s : State) (masses : List ℝ) :
    (get_state_derivative s masses).velocities = s.velocities := rfl

lemma gsd_accelerations_length (s : State) (masses : List ℝ) :
    (get_state_derivative s masses).accelerations.length =
      s.positions.length := by
  simp only [get_state_derivative]
  rw [foldl_pairUpdate_length, List.length_replicate]

lemma map_smul_map_smul (c d : ℝ) (l : List SimVector) :
    ((l.map fun v => c • v).map fun v => d • v) =
      l.map fun v => (c * d) • v := by
  rw [List.map_map]
  apply List.map_congr_left
  intro v _
  show d • c • v = (c * d) • v
  rw [smul_smul, mul_comm]

lemma mul_mul_to_state (k : StateDerivative) (c d : ℝ) :
    ((k.mul c).mul d).to_state =
      { positions := smulL (c * d) k.velocities
        velocities := smulL (c * d) k.accelerations : State } := by
  simp only [StateDerivative.mul, StateDerivative.to_state, smulL]
  rw [map_smul_map_smul, map_smul_map_smul]

lemma mul_to_state (k : StateDerivative) (c : ℝ) :
    (k.mul c).to_state =
      { positions := smulL c k.velocities
        velocities := smulL c k.accelerations : State } := rfl

lemma mul_eq_smulL (k : StateDerivative) (c : ℝ) :
    k.mul c = { velocities := smulL c k.velocities
                accelerations := smulL c k.accelerations : StateDerivative } :=
  rfl

end ThreeBody

namespace ThreeBody

lemma step_eq_claim (state : State) (masses : List ℝ) (dt : ℝ)
    (h : state.positions.length = state.velocities.length) :
    step state masses dt = some (rk4Claim state masses dt) := by
  have eAdd : ∀ (k : StateDerivative) (c : ℝ),
      k.velocities.length = state.velocities.length →
      k.accelerations.length = state.positions.length →
      state.add { positions := smulL c k.velocities
                  velocities := smulL c k.accelerations } =
        some { positions := addL state.positions (smulL c k.velocities)
               velocities := addL state.velocities (smulL c k.accelerations) } := by
    intro k c hv ha
    exact state_add_eq _ _ (by simp [length_smulL, hv, h])
      (by simp [length_smulL, ha, h])
  have hk1v := gsd_velocities state masses
  have hk1vl : (get_state_derivative state masses).velocities.length =
      state.velocities.length := by rw [hk1v]
  have hk1al := gsd_accelerations_length state masses
  -- the first intermediate state
  set k1 := get_state_derivative state masses with hk1def
  set S2 : State :=
    { positions := addL state.positions (smulL (0.5 * dt) k1.velocities)
      velocities := addL state.velocities (smulL (0.5 * dt) k1.accelerations) }
    with hS2def
  have hS2p : S2.positions.length = state.positions.length := by
    simp [hS2def, length_addL, length_smulL, hk1vl, h]
  have hS2v : S2.velocities.length = state.velocities.length := by
    simp [hS2def, length_addL, length_smulL, hk1al, h]
  set k2 := get_state_derivative S2 masses with hk2def
  have hk2vl : k2.velocities.length = state.velocities.length := by
    rw [hk2def, gsd_velocities, hS2v]
  have hk2al : k2.accelerations.length = state.positions.length := by
    rw [hk2def, gsd_accelerations_length, hS2p]
  set S3 : State :=
    { positions := addL state.positions (smulL (0.5 * dt) k2.velocities)
      velocities := addL state.velocities (smulL (0.5 * dt) k2.accelerations) }
    with hS3def
  have hS3p : S3.positions.length = state.positions.length := by
    simp [hS3def, length_addL, length_smulL, hk2vl, h]
  have hS3v : S3.velocities.length = state.velocities.length := by
    simp [hS3def, length_addL, length_smulL, hk2al, h]
  set k3 := get_state_derivative S3 masses with hk3def
  have hk3vl : k3.velocities.length = state.velocities.length := by
    rw [hk3def, gsd_velocities, hS3v]
  have hk3al : k3.accelerations.length = state.positions.length := by
    rw [hk3def, gsd_accelerations_length, hS3p]
  set S4 : State :=
    { positions := addL state.positions (smulL dt k3.velocities)
      velocities := addL state.velocities (smulL dt k3.accelerations) }
    with hS4def
  have hS4p : S4.positions.length = state.positions.length := by
    simp [hS4def, length_addL, length_smulL, hk3vl, h]
  have hS4v : S4.velocities.length = state.velocities.length := by
    simp [hS4def, length_addL, length_smulL, hk3al, h]
  set k4 := get_state_derivative S4 masses with hk4def
  have hk4vl : k4.velocities.length = state.velocities.length := by
    rw [hk4def, gsd_velocities, hS4v]
  have hk4al : k4.accelerations.length = state.positions.length := by
    rw [hk4def, gsd_accelerations_length, hS4p]
  -- the k-sum
  set sum1 : StateDerivative :=
    { velocities := addL k1.velocities (smulL 2 k2.velocities)
      accelerations := addL k1.accelerations (smulL 2 k2.accelerations) }
    with hsum1def
  have hsum1v : sum1.velocities.length = state.velocities.length := by
    simp [hsum1def, length_addL, length_smulL, hk1vl, hk2vl]
  have hsum1a : sum1.accelerations.length = state.positions.length := by
    simp [hsum1def, length_addL, length_smulL, hk1al, hk2al]
  set sum2 : StateDerivative :=
    { velocities := addL sum1.velocities (smulL 2 k3.velocities)
      accelerations := addL sum1.accelerations (smulL 2 k3.accelerations) }
    with hsum2def
  have hsum2v : sum2.velocities.length = state.velocities.length := by
    simp [hsum2def, length_addL, length_smulL, hsum1v, hk3vl]
  have hsum2a : sum2.accelerations.length = state.positions.length := by
    simp [hsum2def, length_addL, length_smulL, hsum1a, hk3al]
  set sum3 : StateDerivative :=
    { velocities := addL sum2.velocities k4.velocities
      accelerations := addL sum2.accelerations k4.accelerations }
    with hsum3def
  have hsum3v : sum3.velocities.length = state.velocities.length := by
    simp [hsum3def, length_addL, hsum2v, hk4vl]
  have hsum3a : sum3.accelerations.length = state.positions.length := by
    simp [hsum3def, length_addL, hsum2a, hk4al]
  -- now unfold the code path and rewrite it stage by stage
  simp only [step, rk4, Option.bind_eq_bind]
  rw [mul_mul_to_state, eAdd k1 (0.5 * dt) hk1vl hk1al, Option.some_bind]
  rw [mul_mul_to_state, eAdd k2 (0.5 * dt) hk2vl hk2al, Option.some_bind]
  rw [mul_to_state, eAdd k3 dt hk3vl hk3al, Option.some_bind]
  rw [mul_eq_smulL k2 2,
    deriv_add_eq k1 _ (by simp [length_smulL, hk1vl, hk2vl])
      (by simp [length_smulL, hk1al, hk2al]), Option.some_bind]
  rw [mul_eq_smulL k3 2,
    deriv_add_eq sum1 _ (by simp [length_smulL, hsum1v, hk3vl])
      (by simp [length_smulL, hsum1a, hk3al]), Option.some_bind]
  rw [deriv_add_eq sum2 _ (by simp [hsum2v, hk4vl])
      (by simp [hsum2a, hk4al]), Option.some_bind]
  rw [mul_mul_to_state, eAdd sum3 (1 / 6 * dt) hsum3v hsum3a]
  rw [show (1 / 6 : ℝ) * dt = dt / 6 from by ring]
  rfl

end ThreeBody

namespace ThreeBody

lemma wsum_nil (l : List SimVector) : wsum [] l = 0 := by
  cases l <;> rfl

lemma wsum_replicate : ∀ (ms : List ℝ) (n : ℕ),
    wsum ms (List.replicate n 0) = 0
  | [], n => wsum_nil _
  | m :: ms, 0 => rfl
  | m :: ms, n + 1 => by
      simp only [List.replicate_succ, wsum, smul_zero, zero_add]
      exact wsum_replicate ms n

lemma wsum_addAt : ∀ (ms : List ℝ) (l : List SimVector) (i : ℕ)
    (x : SimVector), i < l.length → i < ms.length →
    wsum ms (addAt l i x) = wsum ms l + ms.getD i 0 • x
  | [], l, i, x, _, him => by simp at him
  | m :: ms, [], i, x, hil, _ => by simp at hil
  | m :: ms, v :: vs, 0, x, _, _ => by
      simp only [addAt, wsum, List.getD_cons_zero, smul_add]
      abel
  | m :: ms, v :: vs, i + 1, x, hil, him => by
      simp only [addAt, wsum, List.getD_cons_succ]
      rw [wsum_addAt ms vs i x (by simpa using hil) (by simpa using him)]
      abel

lemma wsum_pairUpdate (P : List SimVector) (ms : List ℝ)
    (acc : List SimVector) (ij : ℕ × ℕ)
    (hi : ij.1 < acc.length) (hj : ij.2 < acc.length)
    (hlen : acc.length = ms.length) (hmz : ∀ m ∈ ms, m ≠ 0) :
    wsum ms (pairUpdate P ms acc ij) = wsum ms acc := by
  have him : ij.1 < ms.length := hlen ▸ hi
  have hjm : ij.2 < ms.length := hlen ▸ hj
  have hm1 : ms.getD ij.1 0 ≠ 0 := by
    rw [List.getD_eq_getElem _ _ him]
    exact hmz _ (List.getElem_mem _)
  have hm2 : ms.getD ij.2 0 ≠ 0 := by
    rw [List.getD_eq_getElem _ _ hjm]
    exact hmz _ (List.getElem_mem _)
  simp only [pairUpdate]
  rw [wsum_addAt ms _ ij.2 _ (by rw [addAt_length]; exact hj) hjm,
    wsum_addAt ms _ ij.1 _ hi him]
  rw [one_div, one_div, smul_inv_smul₀ hm1, smul_inv_smul₀ hm2]
  abel

lemma pairsList_mem_bounds (n : ℕ) :
    ∀ ij ∈ pairsList n, ij.1 < ij.2 ∧ ij.2 < n := by
  intro ij hij
  simp only [pairsList, List.mem_flatten, List.mem_map] at hij
  obtain ⟨l, ⟨i, hi, rfl⟩, hmem⟩ := hij
  simp only [List.mem_map, List.mem_range'] at hmem
  obtain ⟨j, ⟨t, ht, rfl⟩, rfl⟩ := hmem
  simp only [List.mem_range] at hi
  omega

lemma wsum_foldl_pairUpdate (P : List SimVector) (ms : List ℝ)
    (hmz : ∀ m ∈ ms, m ≠ 0) :
    ∀ (ps : List (ℕ × ℕ)) (acc : List SimVector),
      acc.length = ms.length →
      (∀ ij ∈ ps, ij.1 < acc.length ∧ ij.2 < acc.length) →
      wsum ms (ps.foldl (pairUpdate P ms) acc) = wsum ms acc
  | [], acc, _, _ => rfl
  | ij :: ps, acc, hlen, hb => by
      simp only [List.foldl_cons]
      have hij := hb ij (List.mem_cons_self _ _)
      rw [wsum_foldl_pairUpdate P ms hmz ps (pairUpdate P ms acc ij)
        (by rw [pairUpdate_length]; exact hlen)
        (by intro p hp; rw [pairUpdate_length]; exact hb p (List.mem_cons_of_mem _ hp))]
      exact wsum_pairUpdate P ms acc ij hij.1 hij.2 hlen hmz

lemma wsum_gsd (s : State) (ms : List ℝ)
    (hms : ms.length = s.positions.length) (hmz : ∀ m ∈ ms, m ≠ 0) :
    wsum ms (get_state_derivative s ms).accelerations = 0 := by
  simp only [get_state_derivative]
  rw [wsum_foldl_pairUpdate s.positions ms hmz _ _
    (by rw [List.length_replicate, hms])
    (by
      intro ij hij
      have hb := pairsList_mem_bounds s.positions.length ij hij
      rw [List.length_replicate]
      omega)]
  exact wsum_replicate ms _

lemma wsum_addL : ∀ (ms : List ℝ) (a b : List SimVector),
    a.length = b.length →
    wsum ms (addL a b) = wsum ms a + wsum ms b
  | [], a, b, _ => by rw [wsum_nil, wsum_nil, wsum_nil, add_zero]
  | m :: ms, [], b, h => by
      have : b = [] := by
        cases b
        · rfl
        · simp at h
      subst this
      simp [addL, wsum]
  | m :: ms, x :: a, [], h => by simp at h
  | m :: ms, x :: a, y :: b, h => by
      rw [show addL (x :: a) (y :: b) = (x + y) :: addL a b from rfl]
      simp only [wsum, smul_add]
      rw [wsum_addL ms a b (by simpa using h)]
      abel

lemma wsum_smulL : ∀ (ms : List ℝ) (c : ℝ) (l : List SimVector),
    wsum ms (smulL c l) = c • wsum ms l
  | [], c, l => by rw [wsum_nil, wsum_nil, smul_zero]
  | m :: ms, c, [] => by simp [smulL, wsum]
  | m :: ms, c, v :: l => by
      rw [show smulL c (v :: l) = c • v :: smulL c l from rfl]
      simp only [wsum]
      rw [wsum_smulL ms c l, smul_add, smul_smul, smul_smul, mul_comm m c]

end ThreeBody

namespace ThreeBody

lemma rk4Claim_lengths (state : State) (masses : List ℝ) (dt : ℝ)
    (h : state.positions.length = state.velocities.length) :
    (rk4Claim state masses dt).positions.length = state.positions.length ∧
    (rk4Claim state masses dt).velocities.length =
      state.velocities.length := by
  constructor <;>
  · simp only [rk4Claim, length_addL, length_smulL, gsd_velocities,
      gsd_accelerations_length]
    omega

lemma rk4Claim_momentum (state : State) (masses : List ℝ) (dt : ℝ)
    (h : state.positions.length = state.velocities.length)
    (hms : masses.length = state.positions.length)
    (hmz : ∀ m ∈ masses, m ≠ 0) :
    wsum masses (rk4Claim state masses dt).velocities =
      wsum masses state.velocities := by
  have hk1al := gsd_accelerations_length state masses
  set k1 := get_state_derivative state masses with hk1def
  set S2 : State :=
    { positions := addL state.positions (smulL (0.5 * dt) k1.velocities)
      velocities := addL state.velocities (smulL (0.5 * dt) k1.accelerations) }
    with hS2def
  have hk1vl : k1.velocities.length = state.velocities.length := by
    rw [hk1def, gsd_velocities]
  have hS2p : S2.positions.length = state.positions.length := by
    simp [hS2def, length_addL, length_smulL, hk1vl, h]
  set k2 := get_state_derivative S2 masses with hk2def
  have hk2vl : k2.velocities.length = state.velocities.length := by
    rw [hk2def, gsd_velocities]
    simp [hS2def, length_addL, length_smulL, hk1al, h]
  have hk2al : k2.accelerations.length = state.positions.length := by
    rw [hk2def, gsd_accelerations_length, hS2p]
  set S3 : State :=
    { positions := addL state.positions (smulL (0.5 * dt) k2.velocities)
      velocities := addL state.velocities (smulL (0.5 * dt) k2.accelerations) }
    with hS3def
  have hS3p : S3.positions.length = state.positions.length := by
    simp [hS3def, length_addL, length_smulL, hk2vl, h]
  set k3 := get_state_derivative S3 masses with hk3def
  have hk3al : k3.accelerations.length = state.positions.length := by
    rw [hk3def, gsd_accelerations_length, hS3p]
  set S4 : State :=
    { positions := addL state.positions (smulL dt k3.velocities)
      velocities := addL state.velocities (smulL dt k3.accelerations) }
    with hS4def
  have hk3vl : k3.velocities.length = state.velocities.length := by
    rw [hk3def, gsd_velocities]
    simp [hS3def, length_addL, length_smulL, hk2al, h]
  have hS4p : S4.positions.length = state.positions.length := by
    simp [hS4def, length_addL, length_smulL, hk3vl, h]
  set k4 := get_state_derivative S4 masses with hk4def
  have hk4al : k4.accelerations.length = state.positions.length := by
    rw [hk4def, gsd_accelerations_length, hS4p]
  have w1 : wsum masses k1.accelerations = 0 := wsum_gsd state masses hms hmz
  have w2 : wsum masses k2.accelerations = 0 :=
    wsum_gsd S2 masses (by rw [hS2p]; exact hms) hmz
  have w3 : wsum masses k3.accelerations = 0 :=
    wsum_gsd S3 masses (by rw [hS3p]; exact hms) hmz
  have w4 : wsum masses k4.accelerations = 0 :=
    wsum_gsd S4 masses (by rw [hS4p]; exact hms) hmz
  have hvel : (rk4Claim state masses dt).velocities =
      addL state.velocities (smulL (dt / 6)
        (addL (addL (addL k1.accelerations (smulL 2 k2.accelerations))
          (smulL 2 k3.accelerations)) k4.accelerations)) := rfl
  rw [hvel]
  have wb : wsum masses
      (addL (addL (addL k1.accelerations (smulL 2 k2.accelerations))
        (smulL 2 k3.accelerations)) k4.accelerations) = 0 := by
    rw [wsum_addL masses _ _ (by
      simp [length_addL, length_smulL, hk1al, hk2al, hk3al, hk4al])]
    rw [wsum_addL masses _ _ (by
      simp [length_addL, length_smulL, hk1al, hk2al, hk3al])]
    rw [wsum_addL masses _ _ (by
      simp [length_addL, length_smulL, hk1al, hk2al])]
    rw [wsum_smulL, wsum_smulL, w1, w2, w3, w4]
    simp
  rw [wsum_addL masses _ _ (by
    simp [length_addL, length_smulL, hk1al, hk2al, hk3al, hk4al, h])]
  rw [wsum_smulL, wb, smul_zero, add_zero]

end ThreeBody

namespace ThreeBody

lemma addPointwise_some_not_lt {a b : List SimVector} {p : List SimVector}
    (hp : addPointwise a b = some p) : ¬ b.length < a.length := fun hlt => by
  rw [(addPointwise_none_iff a b).mpr hlt] at hp
  cases hp

lemma state_add_none_iff (a b : State) :
    a.add b = none ↔ b.positions.length < a.positions.length ∨
      b.velocities.length < a.velocities.length := by
  rw [State.add]
  rcases hp : addPointwise a.positions b.positions with _ | p
  · simp only [Option.bind_eq_bind, Option.none_bind, eq_self_iff_true,
      true_iff]
    exact Or.inl ((addPointwise_none_iff _ _).mp hp)
  · rcases hv : addPointwise a.velocities b.velocities with _ | v
    · simp only [Option.bind_eq_bind, Option.some_bind, Option.none_bind,
        eq_self_iff_true, true_iff]
      exact Or.inr ((addPointwise_none_iff _ _).mp hv)
    · simp only [Option.bind_eq_bind, Option.some_bind, Option.pure_def,
        reduceCtorEq, false_iff]
      push_neg
      exact ⟨Nat.not_lt.mp (addPointwise_some_not_lt hp),
        Nat.not_lt.mp (addPointwise_some_not_lt hv)⟩

lemma deriv_add_none_iff (c d : StateDerivative) :
    c.add d = none ↔ d.velocities.length < c.velocities.length ∨
      d.accelerations.length < c.accelerations.length := by
  rw [StateDerivative.add]
  rcases hp : addPointwise c.velocities d.velocities with _ | p
  · simp only [Option.bind_eq_bind, Option.none_bind, eq_self_iff_true,
      true_iff]
    exact Or.inl ((addPointwise_none_iff _ _).mp hp)
  · rcases hv : addPointwise c.accelerations d.accelerations with _ | v
    · simp only [Option.bind_eq_bind, Option.some_bind, Option.none_bind,
        eq_self_iff_true, true_iff]
      exact Or.inr ((addPointwise_none_iff _ _).mp hv)
    · simp only [Option.bind_eq_bind, Option.some_bind, Option.pure_def,
        reduceCtorEq, false_iff]
      push_neg
      exact ⟨Nat.not_lt.mp (addPointwise_some_not_lt hp),
        Nat.not_lt.mp (addPointwise_some_not_lt hv)⟩

end ThreeBody

/-- Claim C2: the RK4 stepping operation computes k1..k4 — k1 at the base
state, k2/k3 at the base offset by `0.5*dt*k1` and `0.5*dt*k2`, k4 at the
base offset by `dt*k3`, each a full pairwise sweep against the
intermediate state — and returns `state + dt/6 * (k1 + 2*k2 + 2*k3 + k4)`
elementwise (`rk4Claim` spells out exactly this formula).  The masses
list must cover the bodies (`masses[i]`/`masses[j]` panic out of bounds
in the program, so the embedding is faithful only in-bounds). -/
theorem claim_C2_rk4_formula (state : ThreeBody.State) (masses : List ℝ)
    (dt : ℝ) (h : state.positions.length = state.velocities.length)
    (hms : masses.length = state.positions.length) :
    ThreeBody.step state masses dt =
      some (ThreeBody.rk4Claim state masses dt) :=
  ThreeBody.step_eq_claim state masses dt h

/-- Witness for C2 at the analytic 3-body initial state. -/
theorem claim_C2_witness :
    ThreeBody.step ThreeBody.new_3body_state ThreeBody.new_3body_masses 1e-3 =
      some (ThreeBody.rk4Claim ThreeBody.new_3body_state
        ThreeBody.new_3body_masses 1e-3) :=
  claim_C2_rk4_formula ThreeBody.new_3body_state ThreeBody.new_3body_masses
    1e-3 rfl rfl

/-- Claim C7: every stepping operation returns a state with exactly as
many bodies as the input — `step` and `step_rk4` preserve the star list
length and the per-index ids, and the State-based RK4 step succeeds and
preserves both list lengths (the masses list must cover the bodies:
`masses[i]`/`masses[j]` panic out of bounds in the program). -/
theorem claim_C7_stepping_preserves_count (sim : Sim2D.Simulation2D)
    (state : ThreeBody.State) (masses : List ℝ) (dt : ℝ)
    (h : state.positions.length = state.velocities.length)
    (hms : masses.length = state.positions.length) :
    (sim.step).stars.length = sim.stars.length ∧
    ((sim.step).stars.map Sim2D.Star2D.id) = sim.stars.map Sim2D.Star2D.id ∧
    (sim.step_rk4).stars.length = sim.stars.length ∧
    ((sim.step_rk4).stars.map Sim2D.Star2D.id) =
      sim.stars.map Sim2D.Star2D.id ∧
    ∃ s', ThreeBody.step state masses dt = some s' ∧
      s'.positions.length = state.positions.length ∧
      s'.velocities.length = state.velocities.length := by
  refine ⟨by simp [Sim2D.Simulation2D.step], ?_,
    by simp [Sim2D.Simulation2D.step_rk4], ?_, ?_⟩
  · show (sim.stars.map (Sim2D.stepStar sim.stars)).map _ = _
    rw [List.map_map]
    exact List.map_congr_left fun s _ => rfl
  · show (sim.stars.map (Sim2D.rk4Star sim.stars)).map _ = _
    rw [List.map_map]
    exact List.map_congr_left fun s _ => rfl
  · exact ⟨ThreeBody.rk4Claim state masses dt,
      ThreeBody.step_eq_claim state masses dt h,
      (ThreeBody.rk4Claim_lengths state masses dt h).1,
      (ThreeBody.rk4Claim_lengths state masses dt h).2⟩

/-- Witness for C7 at a concrete two-body simulation and the 3-body
state. -/
theorem claim_C7_witness :
    (Sim2D.simA.step).stars.length = Sim2D.simA.stars.length ∧
    ((Sim2D.simA.step).stars.map Sim2D.Star2D.id) =
      Sim2D.simA.stars.map Sim2D.Star2D.id ∧
    (Sim2D.simA.step_rk4).stars.length = Sim2D.simA.stars.length ∧
    ((Sim2D.simA.step_rk4).stars.map Sim2D.Star2D.id) =
      Sim2D.simA.stars.map Sim2D.Star2D.id ∧
    ∃ s', ThreeBody.step ThreeBody.new_3body_state
        ThreeBody.new_3body_masses 1e-3 = some s' ∧
      s'.positions.length = ThreeBody.new_3body_state.positions.length ∧
      s'.velocities.length = ThreeBody.new_3body_state.velocities.length :=
  claim_C7_stepping_preserves_count Sim2D.simA ThreeBody.new_3body_state
    ThreeBody.new_3body_masses 1e-3 rfl rfl

/-- Claim C8: for a closed system (no anchor, nonzero masses), total
momentum `Σ mᵢ • vᵢ` is exactly conserved by one velocity-Verlet step and
by one State-based RK4 step in the exact-real embedding — in particular
the drift is below any positive tolerance. -/
theorem claim_C8_momentum_conserved (sim : Sim2D.Simulation2D)
    (state : ThreeBody.State) (masses : List ℝ) (dt : ℝ)
    (hsim : ∀ s ∈ sim.stars, s.mass ≠ 0)
    (h : state.positions.length = state.velocities.length)
    (hms : masses.length = state.positions.length)
    (hmz : ∀ m ∈ masses, m ≠ 0) :
    Sim2D.momentum (sim.step).stars = Sim2D.momentum sim.stars ∧
    ∃ s', ThreeBody.step state masses dt = some s' ∧
      ThreeBody.wsum masses s'.velocities =
        ThreeBody.wsum masses state.velocities :=
  ⟨Sim2D.momentum_step sim hsim,
   ⟨ThreeBody.rk4Claim state masses dt,
    ThreeBody.step_eq_claim state masses dt h,
    ThreeBody.rk4Claim_momentum state masses dt h hms hmz⟩⟩

/-- Witness for C8 at a concrete two-body simulation and the 3-body
state with masses 1/3. -/
theorem claim_C8_witness :
    Sim2D.momentum (Sim2D.simA.step).stars = Sim2D.momentum Sim2D.simA.stars ∧
    ∃ s', ThreeBody.step ThreeBody.new_3body_state
        ThreeBody.new_3body_masses 1e-3 = some s' ∧
      ThreeBody.wsum ThreeBody.new_3body_masses s'.velocities =
        ThreeBody.wsum ThreeBody.new_3body_masses
          ThreeBody.new_3body_state.velocities :=
  claim_C8_momentum_conserved Sim2D.simA ThreeBody.new_3body_state
    ThreeBody.new_3body_masses 1e-3
    (by
      intro s hs
      simp only [Sim2D.simA, List.mem_cons, List.mem_singleton] at hs
      rcases hs with rfl | rfl | hs
      · norm_num [Sim2D.starA]
      · norm_num [Sim2D.starB]
      · cases hs)
    rfl rfl
    (by
      intro m hm
      simp only [ThreeBody.new_3body_masses, List.mem_cons] at hm
      rcases hm with rfl | rfl | rfl | hm
      · norm_num
      · norm_num
      · norm_num
      · cases hm)

/-- Claim C10: `State`/`StateDerivative` addition is driven by the left
operand's indices — it panics (modelled `none`) exactly when the right
operand is shorter on either list, silently drops right extras (the
result keeps the left lengths), and in RK4's use on a state with equal
position/velocity list lengths the panic branch is unreachable. -/
theorem claim_C10_add_left_biased (a b : ThreeBody.State)
    (c d : ThreeBody.StateDerivative) (state : ThreeBody.State)
    (masses : List ℝ) (dt : ℝ)
    (h : state.positions.length = state.velocities.length) :
    (a.add b = none ↔ b.positions.length < a.positions.length ∨
      b.velocities.length < a.velocities.length) ∧
    (a.positions.length ≤ b.positions.length →
      a.velocities.length ≤ b.velocities.length →
      ∃ r, a.add b = some r ∧ r.positions.length = a.positions.length ∧
        r.velocities.length = a.velocities.length) ∧
    (c.add d = none ↔ d.velocities.length < c.velocities.length ∨
      d.accelerations.length < c.accelerations.length) ∧
    (c.velocities.length ≤ d.velocities.length →
      c.accelerations.length ≤ d.accelerations.length →
      ∃ r, c.add d = some r ∧ r.velocities.length = c.velocities.length ∧
        r.accelerations.length = c.accelerations.length) ∧
    ThreeBody.step state masses dt ≠ none := by
  refine ⟨ThreeBody.state_add_none_iff a b, ?_,
    ThreeBody.deriv_add_none_iff c d, ?_, ?_⟩
  · intro hp hv
    exact ⟨_, ThreeBody.state_add_eq a b hp hv,
      by rw [ThreeBody.length_addL]; omega,
      by rw [ThreeBody.length_addL]; omega⟩
  · intro hv ha
    exact ⟨_, ThreeBody.deriv_add_eq c d hv ha,
      by rw [ThreeBody.length_addL]; omega,
      by rw [ThreeBody.length_addL]; omega⟩
  · rw [ThreeBody.step_eq_claim state masses dt h]
    exact Option.some_ne_none _

/-- Witness for C10 at concrete one-element states and the 3-body
state. -/
theorem claim_C10_witness :
    (ThreeBody.State.add { positions := [(0, 0)], velocities := [(0, 0)] }
        { positions := [(1, 1)], velocities := [(2, 2)] } = none ↔
      ([(1, 1)] : List ThreeBody.SimVector).length <
          ([(0, 0)] : List ThreeBody.SimVector).length ∨
        ([(2, 2)] : List ThreeBody.SimVector).length <
          ([(0, 0)] : List ThreeBody.SimVector).length) ∧
    (∃ r, ThreeBody.State.add
        { positions := [(0, 0)], velocities := [(0, 0)] }
        { positions := [(1, 1)], velocities := [(2, 2)] } = some r ∧
      r.positions.length =
        ([(0, 0)] : List ThreeBody.SimVector).length ∧
      r.velocities.length =
        ([(0, 0)] : List ThreeBody.SimVector).length) ∧
    ThreeBody.step ThreeBody.new_3body_state ThreeBody.new_3body_masses
      1e-3 ≠ none := by
  have hfull := claim_C10_add_left_biased
    { positions := [(0, 0)], velocities := [(0, 0)] }
    { positions := [(1, 1)], velocities := [(2, 2)] }
    { velocities := [(0, 0)], accelerations := [(0, 0)] }
    { velocities := [(1, 1)], accelerations := [(2, 2)] }
    ThreeBody.new_3body_state ThreeBody.new_3body_masses 1e-3 rfl
  exact ⟨hfull.1, hfull.2.1 (by simp) (by simp), hfull.2.2.2.2⟩
